import Mathlib

/-!
A shallow embedding of `src/server.py` (`ReviewAnalyzerServer`), the single
source file of the repository: an in-memory review store served over HTTP.
GET requests filter the store by location and by an inclusive date range,
attach sentiment scores, and return records sorted by compound score
descending; POST requests validate and append a new review.

External collaborators (the pandas date parser, the NLTK sentiment scorer,
`uuid.uuid4`, `datetime.now`, `json.dumps`) are modelled as explicit
parameters or as restricted executable functions, each noted in its doc
comment.  Machine-level details (WSGI plumbing) are elided; the two request
handlers are embedded as pure functions from their inputs and the current
store to the new store and the response.
-/

/-- A review record, as the dict rows of `self.reviews` in `server.py`
(columns ReviewId, ReviewBody, Location, Timestamp). -/
structure Review where
  ReviewId : String
  ReviewBody : String
  Location : String
  Timestamp : String
deriving DecidableEq, Repr

/-- The four polarity fields returned by the external sentiment scorer
(`sia.polarity_scores`).  Scores are modelled as rationals. -/
structure SentimentScore where
  neg : Rat
  neu : Rat
  pos : Rat
  compound : Rat
deriving DecidableEq, Repr

/-- A response record of the GET handler: the review fields plus the
attached `sentiment` dict (lines 79-85 of `server.py`). -/
structure ResponseRecord where
  ReviewId : String
  ReviewBody : String
  Location : String
  Timestamp : String
  sentiment : SentimentScore
deriving DecidableEq, Repr

/-- A parsed date-time value (what `pd.to_datetime` returns), with the
comparison order of timestamps. -/
structure DateTime where
  year : Nat
  month : Nat
  day : Nat
  hour : Nat
  minute : Nat
  second : Nat
deriving DecidableEq, Repr

/-- Chronological comparison of two parsed date-times (lexicographic on
year, month, day, hour, minute, second), the order used by the `>=` and
`<=` comparisons on line 68-69 of `server.py`. -/
def DateTime.le (a b : DateTime) : Bool :=
  if a.year ≠ b.year then decide (a.year < b.year)
  else if a.month ≠ b.month then decide (a.month < b.month)
  else if a.day ≠ b.day then decide (a.day < b.day)
  else if a.hour ≠ b.hour then decide (a.hour < b.hour)
  else if a.minute ≠ b.minute then decide (a.minute < b.minute)
  else decide (a.second ≤ b.second)

/-- Split a character list at every occurrence of the separator `c`
(an executable model of splitting a string on a one-character separator). -/
def splitOnChar (c : Char) : List Char → List (List Char)
  | [] => [[]]
  | x :: xs =>
    match splitOnChar c xs, decide (x = c) with
    | r, true => [] :: r
    | [], false => [[x]]
    | y :: ys, false => (x :: y) :: ys

/-- Accumulate a decimal digit list into a `Nat`. -/
def digitsToNat : List Char → Nat → Nat
  | [], acc => acc
  | c :: cs, acc => digitsToNat cs (acc * 10 + (c.toNat - 48))

/-- Parse a field of exactly `w` decimal digits. -/
def parseFixedNat (w : Nat) (cs : List Char) : Option Nat :=
  if cs.length = w ∧ cs.all Char.isDigit then some (digitsToNat cs 0) else Option.none

/-- Parse a `YYYY-MM-DD` calendar date. -/
def parseYMD (cs : List Char) : Option (Nat × Nat × Nat) :=
  match splitOnChar '-' cs with
  | [ys, ms, ds] => do
    let y ← parseFixedNat 4 ys
    let m ← parseFixedNat 2 ms
    let d ← parseFixedNat 2 ds
    if 1 ≤ m ∧ m ≤ 12 ∧ 1 ≤ d ∧ d ≤ 31 then some (y, m, d) else Option.none
  | _ => Option.none

/-- Parse an `HH:MM:SS` time of day. -/
def parseHMS (cs : List Char) : Option (Nat × Nat × Nat) :=
  match splitOnChar ':' cs with
  | [hs, ms, ss] => do
    let h ← parseFixedNat 2 hs
    let mi ← parseFixedNat 2 ms
    let sec ← parseFixedNat 2 ss
    if h ≤ 23 ∧ mi ≤ 59 ∧ sec ≤ 59 then some (h, mi, sec) else Option.none
  | _ => Option.none

/-- Model of the external `pd.to_datetime` parser, restricted to the
repository's declared timestamp formats: `YYYY-MM-DD HH:MM:SS` (the format
every stored `Timestamp` is declared to use) and a bare `YYYY-MM-DD`
(midnight).  Any other shape fails, modelling the `ValueError` that
`pd.to_datetime` raises on an unparseable string.  None of the claims
settled below depend on exactly which strings the external parser accepts,
only on the handler's branching on parse success and failure. -/
def parseDate (s : String) : Option DateTime :=
  match splitOnChar ' ' s.data with
  | [d] => (parseYMD d).map (fun p => ⟨p.1, p.2.1, p.2.2, 0, 0, 0⟩)
  | [d, t] => do
    let p ← parseYMD d
    let q ← parseHMS t
    some ⟨p.1, p.2.1, p.2.2, q.1, q.2.1, q.2.2⟩
  | _ => Option.none

/-- Python truthiness of an optional string parameter, as used by
`if location:`, `if start_date or end_date:` and `if not location or not
review_body:` in `server.py`: `None` and the empty string are falsy. -/
def optTruthy : Option String → Bool
  | Option.none => false
  | some s => decide (¬ s = "")

/-- The Python exception kinds relevant to the GET date block: the handler
catches `ValueError` (line 71); any other exception escapes. -/
inductive PyErr where
  | valueError
  | typeError
deriving DecidableEq, Repr

/-- The value held by the `start_date` / `end_date` local variable after the
conditional reassignment on lines 61-64 of `server.py`: Python `None`, a
string left unparsed (only possible for a falsy string), or a parsed
date-time. -/
inductive DateVar where
  | pyNone
  | pyStr (s : String)
  | pyDT (d : DateTime)
deriving DecidableEq, Repr

/-- Lines 61-64 of `server.py`: parse the query-parameter string only when
it is truthy; an unparseable truthy string raises `ValueError`. -/
def parseParam : Option String → Except PyErr DateVar
  | Option.none => .ok .pyNone
  | some s =>
    if s = "" then .ok (.pyStr s)
    else
      match parseDate s with
      | some d => .ok (.pyDT d)
      | Option.none => .error .valueError

/-- The condition `start_date is None or pd.to_datetime(review['Timestamp'])
>= start_date` (line 68): evaluating it parses the stored timestamp
(possible `ValueError`); comparing a parsed timestamp with a leftover
string would raise `TypeError`. -/
def checkLower (sv : DateVar) (r : Review) : Except PyErr Bool :=
  match sv with
  | .pyNone => .ok true
  | .pyStr _ =>
    match parseDate r.Timestamp with
    | Option.none => .error .valueError
    | some _ => .error .typeError
  | .pyDT d =>
    match parseDate r.Timestamp with
    | Option.none => .error .valueError
    | some t => .ok (DateTime.le d t)

/-- The condition `end_date is None or pd.to_datetime(review['Timestamp'])
<= end_date` (line 69). -/
def checkUpper (ev : DateVar) (r : Review) : Except PyErr Bool :=
  match ev with
  | .pyNone => .ok true
  | .pyStr _ =>
    match parseDate r.Timestamp with
    | Option.none => .error .valueError
    | some _ => .error .typeError
  | .pyDT d =>
    match parseDate r.Timestamp with
    | Option.none => .error .valueError
    | some t => .ok (DateTime.le t d)

/-- The full per-review condition of the comprehension on lines 66-70,
with Python's left-to-right short-circuit `and`. -/
def reviewInRange (sv ev : DateVar) (r : Review) : Except PyErr Bool := do
  let a ← checkLower sv r
  if a then checkUpper ev r else pure false

/-- The list comprehension on lines 66-70: reviews are examined left to
right and the first raised exception aborts the whole comprehension. -/
def filterByDates (sv ev : DateVar) : List Review → Except PyErr (List Review)
  | [] => .ok []
  | r :: rs => do
    let b ← reviewInRange sv ev r
    let rest ← filterByDates sv ev rs
    pure (if b then r :: rest else rest)

/-- Lines 54-56 of `server.py`: the location filter, applied only when the
`location` parameter is truthy, keeps reviews whose `Location` equals it. -/
def filterByLocation : Option String → List Review → List Review
  | Option.none, reviews => reviews
  | some l, reviews =>
    if l = "" then reviews else reviews.filter (fun r => decide (r.Location = l))

/-- Lines 54-70 of `server.py`: the location filter followed by the guarded
date-range filter.  `.ok` is the surviving subsequence; `.error .valueError`
is the exception caught on line 71; `.error .typeError` is an exception the
handler does not catch. -/
def getFiltered (loc sd ed : Option String) (reviews : List Review) :
    Except PyErr (List Review) :=
  let filtered := filterByLocation loc reviews
  if optTruthy sd || optTruthy ed then do
    let sv ← parseParam sd
    let ev ← parseParam ed
    filterByDates sv ev filtered
  else .ok filtered

/-- Lines 77-86 of `server.py`: attach the sentiment score (the external
scorer is the `score` parameter) to a surviving review. -/
def toRecord (score : String → SentimentScore) (r : Review) : ResponseRecord :=
  ⟨r.ReviewId, r.ReviewBody, r.Location, r.Timestamp, score r.ReviewBody⟩

/-- The key comparison of line 89 (`key=lambda x: x['sentiment']['compound'],
reverse=True`): `a` may precede `b` when `b`'s compound is at most `a`'s. -/
def compoundDesc (a b : ResponseRecord) : Bool :=
  decide (b.sentiment.compound ≤ a.sentiment.compound)

/-- Line 89 of `server.py`: `results.sort(...)`.  Python's `list.sort` is a
stable sort; with `reverse=True` equal-key elements keep their relative
order, which `List.mergeSort` with the descending comparison also
guarantees. -/
def sortRecords (rs : List ResponseRecord) : List ResponseRecord :=
  rs.mergeSort compoundDesc

/-- Left brace character as a string. -/
def lbrace : String := "\x7b"

/-- Right brace character as a string. -/
def rbrace : String := "\x7d"

/-- JSON escaping of one character, modelling the external `json.dumps`
escaping for the characters it escapes with a short sequence. -/
def jsonEscapeChar (c : Char) : String :=
  if c = '"' then "\\\""
  else if c = '\\' then "\\\\"
  else if c = '\n' then "\\n"
  else if c = '\r' then "\\r"
  else if c = '\t' then "\\t"
  else String.singleton c

/-- A JSON string literal. -/
def jsonStr (s : String) : String :=
  "\"" ++ String.join (s.data.map jsonEscapeChar) ++ "\""

/-- Render a rational sentiment component. -/
def renderRat (q : Rat) : String :=
  if q.den = 1 then toString q.num else toString q.num ++ "/" ++ toString q.den

/-- Serialization of the attached sentiment dict. -/
def renderSentiment (s : SentimentScore) : String :=
  lbrace ++ "\"neg\": " ++ renderRat s.neg ++ ", \"neu\": " ++ renderRat s.neu ++
    ", \"pos\": " ++ renderRat s.pos ++ ", \"compound\": " ++ renderRat s.compound ++ rbrace

/-- Serialization of one GET response record. -/
def renderRecord (r : ResponseRecord) : String :=
  lbrace ++ "\"ReviewId\": " ++ jsonStr r.ReviewId ++ ", \"ReviewBody\": " ++
    jsonStr r.ReviewBody ++ ", \"Location\": " ++ jsonStr r.Location ++
    ", \"Timestamp\": " ++ jsonStr r.Timestamp ++ ", \"sentiment\": " ++
    renderSentiment r.sentiment ++ rbrace

/-- Model of `json.dumps(results, indent=2)` on line 91: the empty list
renders as `[]` exactly as in Python; for a non-empty list the record
fields and their order are modelled faithfully while the indentation
whitespace of `indent=2` is not reproduced (no claim depends on it). -/
def renderRecords : List ResponseRecord → String
  | [] => "[]"
  | r :: rs => "[" ++ String.intercalate ", " ((r :: rs).map renderRecord) ++ "]"

/-- Model of `json.dumps(new_review, indent=2)` on line 129 (indentation
whitespace not reproduced; no claim depends on it). -/
def renderReview (r : Review) : String :=
  lbrace ++ "\"ReviewId\": " ++ jsonStr r.ReviewId ++ ", \"ReviewBody\": " ++
    jsonStr r.ReviewBody ++ ", \"Location\": " ++ jsonStr r.Location ++
    ", \"Timestamp\": " ++ jsonStr r.Timestamp ++ rbrace

/-- An HTTP response as assembled by the handler: the status string passed
to `start_response`, the header list passed alongside it, and the body. -/
structure Response where
  status : String
  headers : List (String × String)
  body : String
deriving DecidableEq, Repr

/-- The `Content-Type` header pair every branch sets. -/
def contentType : String × String := ("Content-Type", "application/json")

/-- Lines 92-96: the 200 response, with `Content-Length` set to the byte
length of the body. -/
def jsonOk (body : String) : Response :=
  ⟨"200 OK", [contentType, ("Content-Length", toString body.utf8ByteSize)], body⟩

/-- Lines 131-135: the 201 response, with `Content-Length` set to the byte
length of the body. -/
def jsonCreated (body : String) : Response :=
  ⟨"201 Created", [contentType, ("Content-Length", toString body.utf8ByteSize)], body⟩

/-- Lines 72-73: the malformed-date 400 response.  Note the header list
contains only `Content-Type`. -/
def invalidDateResponse : Response :=
  ⟨"400 Bad Request", [contentType],
    lbrace ++ "\"error\": \"Invalid date format\"" ++ rbrace⟩

/-- Lines 108-109: the missing-fields 400 response.  Only `Content-Type`. -/
def requiredResponse : Response :=
  ⟨"400 Bad Request", [contentType],
    lbrace ++ "\"error\": \"Location and ReviewBody are required\"" ++ rbrace⟩

/-- Lines 112-113: the invalid-location 400 response.  Only `Content-Type`. -/
def invalidLocationResponse : Response :=
  ⟨"400 Bad Request", [contentType],
    lbrace ++ "\"error\": \"Invalid location\"" ++ rbrace⟩

/-- The outcome of one handler invocation: a response handed to
`start_response`, or an exception escaping the handler uncaught. -/
inductive HandlerResult where
  | response (r : Response)
  | crash (e : PyErr)
deriving DecidableEq, Repr

/-- The GET pipeline up to and including the sort on line 89: the surviving
reviews with sentiment attached, sorted by compound descending. -/
def getRecords (score : String → SentimentScore) (loc sd ed : Option String)
    (reviews : List Review) : Except PyErr (List ResponseRecord) :=
  (getFiltered loc sd ed reviews).map (fun fr => sortRecords (fr.map (toRecord score)))

/-- The GET branch of `ReviewAnalyzerServer.__call__` (lines 45-96).
`score` is the external sentiment scorer; `loc`, `sd`, `ed` are the
`location`, `start_date`, `end_date` query parameters as extracted on
lines 49-51 (`None` when absent; `parse_qs` with default arguments never
yields an empty-string value). -/
def callGet (score : String → SentimentScore) (loc sd ed : Option String)
    (reviews : List Review) : HandlerResult :=
  match getRecords score loc sd ed reviews with
  | .error .valueError => .response invalidDateResponse
  | .error .typeError => .crash .typeError
  | .ok recs => .response (jsonOk (renderRecords recs))

/-- Lines 28-35 of `server.py`, transcribed verbatim. -/
def VALID_LOCATIONS : List String := [
  "Albuquerque, New Mexico", "Carlsbad, California", "Chula Vista, California",
  "Colorado Springs, Colorado", "Denver, Colorado", "El Cajon, California",
  "El Paso, Texas", "Escondido, California", "Fresno, California",
  "La Mesa, California", "Las Vegas, Nevada", "Los Angeles, California",
  "Oceanside, California", "Phoenix, Arizona", "Sacramento, California",
  "Salt Lake City, Utah", "San Diego, California", "Tucson, Arizona"]

/-- The character for hex digit `n` (lowercase), as Python's `%x`
formatting produces. -/
def digitChar (n : Nat) : Char :=
  if n < 10 then Char.ofNat (48 + n) else Char.ofNat (87 + n)

/-- The `w` least significant base-`base` digits of `n`, least significant
first. -/
def padNumRev : Nat → Nat → Nat → List Char
  | _, 0, _ => []
  | base, w + 1, n => digitChar (n % base) :: padNumRev base w (n / base)

/-- `n` written with exactly `w` digits in base `base` (zero padded). -/
def padNum (base w n : Nat) : List Char := (padNumRev base w n).reverse

/-- Model of `str(uuid.uuid4())` (line 116) applied to a 128-bit value `n`
supplied by the environment: 32 lowercase hex digits in the canonical
8-4-4-4-12 grouping, 36 characters in all. -/
def uuidString (n : Nat) : String :=
  String.mk (padNum 16 8 (n / 2 ^ 96 % 2 ^ 32) ++ '-' ::
    (padNum 16 4 (n / 2 ^ 80 % 2 ^ 16) ++ '-' ::
      (padNum 16 4 (n / 2 ^ 64 % 2 ^ 16) ++ '-' ::
        (padNum 16 4 (n / 2 ^ 48 % 2 ^ 16) ++ '-' ::
          padNum 16 12 (n % 2 ^ 48)))))

/-- Model of `datetime.now().strftime("%Y-%m-%d %H:%M:%S")` (line 117)
applied to a clock reading supplied by the environment. -/
def formatTimestamp (d : DateTime) : String :=
  String.mk (padNum 10 4 d.year ++ '-' ::
    (padNum 10 2 d.month ++ '-' ::
      (padNum 10 2 d.day ++ ' ' ::
        (padNum 10 2 d.hour ++ ':' ::
          (padNum 10 2 d.minute ++ ':' ::
            padNum 10 2 d.second)))))

/-- Checks that a string has the exact shape `YYYY-MM-DD HH:MM:SS`:
nineteen characters, digits and the three separators in their places. -/
def isTimestampFormat (s : String) : Bool :=
  match s.data with
  | [y1, y2, y3, y4, c1, m1, m2, c2, d1, d2, c3, h1, h2, c4, n1, n2, c5, s1, s2] =>
    y1.isDigit && y2.isDigit && y3.isDigit && y4.isDigit && (c1 == '-') &&
    m1.isDigit && m2.isDigit && (c2 == '-') && d1.isDigit && d2.isDigit &&
    (c3 == ' ') && h1.isDigit && h2.isDigit && (c4 == ':') &&
    n1.isDigit && n2.isDigit && (c5 == ':') && s1.isDigit && s2.isDigit
  | _ => false

/-- The POST branch of `ReviewAnalyzerServer.__call__` (lines 98-135).
`loc` and `rb` are the `Location` and `ReviewBody` form fields as extracted
on lines 103-104; `uuidVal` and `now` are the values the environment
supplies to `uuid.uuid4()` and `datetime.now()`.  Returns the new store and
the response. -/
def callPost (loc rb : Option String) (uuidVal : Nat) (now : DateTime)
    (reviews : List Review) : List Review × Response :=
  match loc, rb with
  | some l, some b =>
    if l = "" ∨ b = "" then (reviews, requiredResponse)
    else if l ∈ VALID_LOCATIONS then
      let nr : Review := ⟨uuidString uuidVal, b, l, formatTimestamp now⟩
      (reviews ++ [nr], jsonCreated (renderReview nr))
    else (reviews, invalidLocationResponse)
  | _, _ => (reviews, requiredResponse)

/-- Modelled from the spec's words (§4.1), for the refinement claim about
the filter: keep a review when its location matches the parameter (when
provided) and its parsed timestamp lies within the inclusive bounds. -/
def specFilter (loc : Option String) (sd ed : Option DateTime)
    (reviews : List Review) : List Review :=
  reviews.filter fun r =>
    (match loc with
     | Option.none => true
     | some l => decide (r.Location = l)) &&
    (match sd with
     | Option.none => true
     | some d =>
       match parseDate r.Timestamp with
       | some t => DateTime.le d t
       | Option.none => false) &&
    (match ed with
     | Option.none => true
     | some d =>
       match parseDate r.Timestamp with
       | some t => DateTime.le t d
       | Option.none => false)

/-- Modelled from the spec's words (§6), for the refinement claim about the
valid-location set: the eighteen enumerated city/state pairs, each written
as its full "City, State" string. -/
def specValidLocations : List String := [
  "Albuquerque, New Mexico", "Carlsbad, California", "Chula Vista, California",
  "Colorado Springs, Colorado", "Denver, Colorado", "El Cajon, California",
  "El Paso, Texas", "Escondido, California", "Fresno, California",
  "La Mesa, California", "Las Vegas, Nevada", "Los Angeles, California",
  "Oceanside, California", "Phoenix, Arizona", "Sacramento, California",
  "Salt Lake City, Utah", "San Diego, California", "Tucson, Arizona"]

/-- The date variable produced by a successful conditional parse of an
optional, never-empty parameter: absent stays Python `None`, present
becomes the parsed date-time. -/
def toVar : Option DateTime → DateVar
  | Option.none => .pyNone
  | some d => .pyDT d

/-- A concrete scorer used to instantiate the external-scorer parameter in
witnesses: every text gets the neutral score. -/
def score0 : String → SentimentScore := fun _ => ⟨0, 1, 0, 0⟩

/-- A concrete clock reading used in witnesses. -/
def dt0 : DateTime := ⟨2023, 1, 1, 0, 0, 0⟩

/-- A concrete stored review whose `Timestamp` does not parse. -/
def badReview : Review := ⟨"id1", "body", "Denver, Colorado", "not-a-date"⟩

/-- A concrete stored review with a well-formed `Timestamp`. -/
def goodReview : Review := ⟨"id2", "nice", "Denver, Colorado", "2023-06-15 12:00:00"⟩

/-- A request routed by `REQUEST_METHOD` (lines 45 and 98). -/
inductive Request where
  | get (loc sd ed : Option String)
  | post (loc rb : Option String)
deriving DecidableEq, Repr

/-- One request-handling step of the server: the store after the request
and the handler outcome. -/
def step (score : String → SentimentScore) (uuidVal : Nat) (now : DateTime)
    (req : Request) (reviews : List Review) : List Review × HandlerResult :=
  match req with
  | .get loc sd ed => (reviews, callGet score loc sd ed reviews)
  | .post loc rb =>
    let out := callPost loc rb uuidVal now reviews
    (out.1, .response out.2)

/-- The lower-bound test of the comprehension, on an already-parsed
timestamp: `start_date is None or t >= start_date`. -/
def lowerOkB : Option DateTime → DateTime → Bool
  | Option.none, _ => true
  | some d, t => DateTime.le d t

/-- The upper-bound test of the comprehension, on an already-parsed
timestamp: `end_date is None or t <= end_date`. -/
def upperOkB : Option DateTime → DateTime → Bool
  | Option.none, _ => true
  | some d, t => DateTime.le t d

/-- The combined per-review date test on parseable data: the stored
timestamp parses and lies within both provided bounds. -/
def datePassB (sd ed : Option DateTime) (r : Review) : Bool :=
  match parseDate r.Timestamp with
  | some t => lowerOkB sd t && upperOkB ed t
  | Option.none => false

/-! ## Helper lemmas -/

theorem padNumRev_length (base : Nat) : ∀ (w n : Nat), (padNumRev base w n).length = w
  | 0, _ => rfl
  | w + 1, n => by simp [padNumRev, padNumRev_length base w]

theorem padNum_length (base w n : Nat) : (padNum base w n).length = w := by
  simp [padNum, padNumRev_length]

theorem parseParam_error (x : Option String) (e : PyErr)
    (h : parseParam x = .error e) : e = .valueError := by
  cases x with
  | none => simp [parseParam] at h
  | some s =>
    by_cases hs : s = "" <;> simp [parseParam, hs] at h
    rcases hp : parseDate s with _ | d <;> rw [hp] at h <;> simp at h
    exact h.symm

theorem filterByLocation_sublist (loc : Option String) (reviews : List Review) :
    (filterByLocation loc reviews).Sublist reviews := by
  cases loc with
  | none => exact List.Sublist.refl _
  | some l =>
    by_cases hl : l = "" <;> simp [filterByLocation, hl]


/-! ## Claim C4 -/

/-- C4: every POST submission that fails validation — a missing or empty
`Location` or `ReviewBody`, or a `Location` outside the fixed
valid-location set — yields the corresponding structured 400 error
response, and the store is returned unchanged on every failure path. -/
theorem c4_post_validation_failures (loc rb : Option String) (u : Nat)
    (now : DateTime) (reviews : List Review) :
    (optTruthy loc = false ∨ optTruthy rb = false →
      callPost loc rb u now reviews = (reviews, requiredResponse)) ∧
    (∀ l b, loc = some l → rb = some b → l ≠ "" → b ≠ "" →
      l ∉ VALID_LOCATIONS →
      callPost loc rb u now reviews = (reviews, invalidLocationResponse)) := by
  constructor
  · intro h
    cases loc with
    | none => rfl
    | some l =>
      cases rb with
      | none => rfl
      | some b =>
        simp only [optTruthy, decide_eq_false_iff_not, not_not] at h
        rcases h with h | h <;> simp [callPost, h]
  · intro l b hl hb hl' hb' hv
    subst hl; subst hb
    simp [callPost, hl', hb', hv]

/-- Witness for C4 at concrete inputs: a POST with both fields missing is
rejected with the "required" error, and a POST with an unknown location is
rejected with the "invalid location" error, the store unchanged in both. -/
theorem c4_witness :
    callPost Option.none Option.none 0 dt0 [goodReview] =
      ([goodReview], requiredResponse) ∧
    callPost (some "Nowhere") (some "test") 0 dt0 [goodReview] =
      ([goodReview], invalidLocationResponse) :=
  ⟨(c4_post_validation_failures Option.none Option.none 0 dt0 [goodReview]).1
      (Or.inl (by decide)),
   (c4_post_validation_failures (some "Nowhere") (some "test") 0 dt0
      [goodReview]).2 "Nowhere" "test" rfl rfl (by decide) (by decide) (by decide)⟩

/-! ## Claim C6 -/

/-- C6: the fixed valid-location set is exactly the eighteen enumerated
full "City, State" strings of the spec, and a POST `Location` is accepted
(201) precisely when it is a member of that list. -/
theorem c6_valid_location_set (l b : String) (u : Nat) (now : DateTime)
    (reviews : List Review) (hl : l ≠ "") (hb : b ≠ "") :
    ((callPost (some l) (some b) u now reviews).2.status = "201 Created" ↔
      l ∈ VALID_LOCATIONS) ∧
    VALID_LOCATIONS = specValidLocations ∧
    VALID_LOCATIONS.length = 18 ∧ VALID_LOCATIONS.Nodup := by
  refine ⟨?_, rfl, rfl, by decide⟩
  by_cases hv : l ∈ VALID_LOCATIONS <;>
    simp [callPost, hl, hb, hv, jsonCreated, invalidLocationResponse]

/-- Witness for C6 at concrete inputs: a valid location is accepted and an
unknown one is not. -/
theorem c6_witness :
    ((callPost (some "Denver, Colorado") (some "ok") 0 dt0 []).2.status =
        "201 Created" ↔ "Denver, Colorado" ∈ VALID_LOCATIONS) ∧
    VALID_LOCATIONS = specValidLocations ∧
    VALID_LOCATIONS.length = 18 ∧ VALID_LOCATIONS.Nodup :=
  c6_valid_location_set "Denver, Colorado" "ok" 0 dt0 [] (by decide) (by decide)

/-! ## Claim C7 -/

/-- C7 counterexample: the server's 400 response to a POST with missing
fields carries no `Content-Length` header at all, refuting the claim that
every response carries an accurate `Content-Length`. -/
theorem c7_counterexample :
    (step score0 0 dt0 (.post Option.none Option.none) []).2 =
      .response requiredResponse ∧
    requiredResponse.headers.any (fun p => p.1 == "Content-Length") = false ∧
    requiredResponse.headers = [("Content-Type", "application/json")] := by
  decide

/-- C7 as amended: every response carries `Content-Type: application/json`,
and the success responses (status 200 or 201) additionally carry a
`Content-Length` equal to the byte length of the body; the 400 error
responses set no `Content-Length`. -/
theorem c7_amended_headers (score : String → SentimentScore) (u : Nat)
    (now : DateTime) (req : Request) (reviews : List Review) (resp : Response)
    (h : (step score u now req reviews).2 = .response resp) :
    contentType ∈ resp.headers ∧
    (resp.status = "200 OK" ∨ resp.status = "201 Created" →
      ("Content-Length", toString resp.body.utf8ByteSize) ∈ resp.headers) := by
  cases req with
  | get loc sd ed =>
    replace h : callGet score loc sd ed reviews = .response resp := h
    unfold callGet at h
    split at h
    · injection h with h
      subst h
      refine ⟨by simp [invalidDateResponse], ?_⟩
      intro hs
      rcases hs with hs | hs <;> simp [invalidDateResponse] at hs
    · exact absurd h (by simp)
    · injection h with h
      subst h
      exact ⟨by simp [jsonOk], fun _ => by simp [jsonOk]⟩
  | post loc rb =>
    replace h : HandlerResult.response (callPost loc rb u now reviews).2 =
        .response resp := h
    injection h with h
    subst h
    unfold callPost
    rcases loc with _ | l
    · refine ⟨by simp [requiredResponse], ?_⟩
      intro hs
      rcases hs with hs | hs <;> simp [requiredResponse] at hs
    · rcases rb with _ | b
      · refine ⟨by simp [requiredResponse], ?_⟩
        intro hs
        rcases hs with hs | hs <;> simp [requiredResponse] at hs
      · by_cases h0 : l = "" ∨ b = ""
        · refine ⟨by simp [h0, requiredResponse], ?_⟩
          intro hs
          rcases hs with hs | hs <;> simp [h0, requiredResponse] at hs
        · by_cases hv : l ∈ VALID_LOCATIONS
          · exact ⟨by simp [h0, hv, jsonCreated], fun _ => by simp [h0, hv, jsonCreated]⟩
          · refine ⟨by simp [h0, hv, invalidLocationResponse], ?_⟩
            intro hs
            rcases hs with hs | hs <;> simp [h0, hv, invalidLocationResponse] at hs

/-- Witness for the amended C7 at a concrete input: the 201 response to a
valid POST carries both headers. -/
theorem c7_amended_witness :
    contentType ∈ (callPost (some "Denver, Colorado") (some "ok") 0 dt0 []).2.headers ∧
    ((callPost (some "Denver, Colorado") (some "ok") 0 dt0 []).2.status = "200 OK" ∨
      (callPost (some "Denver, Colorado") (some "ok") 0 dt0 []).2.status = "201 Created" →
      ("Content-Length",
        toString (callPost (some "Denver, Colorado") (some "ok") 0 dt0 []).2.body.utf8ByteSize) ∈
        (callPost (some "Denver, Colorado") (some "ok") 0 dt0 []).2.headers) :=
  c7_amended_headers score0 0 dt0 (.post (some "Denver, Colorado") (some "ok")) []
    (callPost (some "Denver, Colorado") (some "ok") 0 dt0 []).2 rfl

/-! ## Claim C8 -/

/-- C8: a GET with neither `start_date` nor `end_date` skips the date block
entirely — for every store, including stores with unparseable timestamps,
the request succeeds with the location-filtered, scored, sorted records and
can never produce the invalid-date error. -/
theorem c8_no_dates_no_parse (score : String → SentimentScore)
    (loc : Option String) (reviews : List Review) :
    callGet score loc Option.none Option.none reviews =
      .response (jsonOk (renderRecords (sortRecords
        ((filterByLocation loc reviews).map (toRecord score))))) ∧
    callGet score loc Option.none Option.none reviews ≠
      .response invalidDateResponse := by
  have h : getFiltered loc Option.none Option.none reviews =
      .ok (filterByLocation loc reviews) := rfl
  have h2 : callGet score loc Option.none Option.none reviews =
      .response (jsonOk (renderRecords (sortRecords
        ((filterByLocation loc reviews).map (toRecord score))))) := by
    simp [callGet, getRecords, h, Except.map]
  refine ⟨h2, ?_⟩
  rw [h2]
  intro hc
  injection hc with hc
  have : "200 OK" = "400 Bad Request" := congrArg Response.status hc
  simp at this

/-! ## Claim C9 -/

/-- C9: every GET request is read-only — the store after the step is the
store before it — and a GET whose filters leave no review responds 200
with the empty JSON array, not an error. -/
theorem c9_get_read_only (score : String → SentimentScore) (u : Nat)
    (now : DateTime) (loc sd ed : Option String) (reviews : List Review) :
    (step score u now (.get loc sd ed) reviews).1 = reviews ∧
    (getFiltered loc sd ed reviews = .ok [] →
      callGet score loc sd ed reviews = .response (jsonOk "[]")) := by
  refine ⟨rfl, fun h => ?_⟩
  simp [callGet, getRecords, h, Except.map, sortRecords, renderRecords]

/-- Witness for C9 at a concrete input: a GET over the empty store touches
nothing and returns the empty array response. -/
theorem c9_witness :
    getFiltered Option.none Option.none Option.none [] = .ok [] ∧
    (step score0 0 dt0 (.get Option.none Option.none Option.none) []).1 =
      ([] : List Review) ∧
    callGet score0 Option.none Option.none Option.none [] =
      .response (jsonOk "[]") :=
  ⟨rfl,
   (c9_get_read_only score0 0 dt0 Option.none Option.none Option.none []).1,
   (c9_get_read_only score0 0 dt0 Option.none Option.none Option.none []).2 rfl⟩

/-! ## Claim C3 -/

theorem except_error_bind {ε : Type} {α β : Type} (e : ε) (f : α → Except ε β) :
    (Except.error e >>= f) = (Except.error e : Except ε β) := rfl

theorem except_ok_bind {ε : Type} {α β : Type} (a : α) (f : α → Except ε β) :
    ((Except.ok a : Except ε α) >>= f) = f a := rfl

/-- C3: a GET whose provided `start_date` or `end_date` string fails to
parse responds 400 with the invalid-date body — the whole request outcome
is exactly that error response, so no filtering or further processing
contributes to it. -/
theorem c3_unparseable_date_param (score : String → SentimentScore)
    (loc sd ed : Option String) (reviews : List Review)
    (h : (∃ s, sd = some s ∧ s ≠ "" ∧ parseDate s = Option.none) ∨
         (∃ s, ed = some s ∧ s ≠ "" ∧ parseDate s = Option.none)) :
    callGet score loc sd ed reviews = .response invalidDateResponse := by
  have hcond : (optTruthy sd || optTruthy ed) = true := by
    rcases h with ⟨s, hs, hne, _⟩ | ⟨s, hs, hne, _⟩ <;> subst hs <;>
      simp [optTruthy, hne]
  have herr : getFiltered loc sd ed reviews = .error .valueError := by
    simp only [getFiltered, hcond, if_true]
    rcases h with ⟨s, hs, hne, hp⟩ | ⟨s, hs, hne, hp⟩
    · subst hs
      have hpp : parseParam (some s) = .error .valueError := by
        simp [parseParam, hne, hp]
      simp [hpp, except_error_bind]
    · subst hs
      have hpp : parseParam (some s) = .error .valueError := by
        simp [parseParam, hne, hp]
      rcases hps : parseParam sd with e | sv
      · have he := parseParam_error sd e hps
        subst he
        simp [hps, except_error_bind]
      · simp [hps, hpp, except_ok_bind, except_error_bind]
  simp [callGet, getRecords, herr, Except.map]

/-- Witness for C3 at a concrete input: `start_date=garbage` yields the
invalid-date 400 response. -/
theorem c3_witness :
    (∃ s, (some "garbage" : Option String) = some s ∧ s ≠ "" ∧
      parseDate s = Option.none) ∧
    callGet score0 Option.none (some "garbage") Option.none [goodReview] =
      .response invalidDateResponse :=
  ⟨⟨"garbage", rfl, by decide, by decide⟩,
   c3_unparseable_date_param score0 Option.none (some "garbage") Option.none
     [goodReview] (Or.inl ⟨"garbage", rfl, by decide, by decide⟩)⟩

/-! ## Claim C5 -/

theorem isDigit_digitChar_mod (n : Nat) : (digitChar (n % 10)).isDigit = true := by
  have h10 : n % 10 < 10 := Nat.mod_lt _ (by norm_num)
  unfold digitChar
  rw [if_pos h10]
  set k := n % 10 with hk
  interval_cases k <;> decide

theorem formatTimestamp_data (d : DateTime) : (formatTimestamp d).data =
    [digitChar (d.year / 10 / 10 / 10 % 10), digitChar (d.year / 10 / 10 % 10),
     digitChar (d.year / 10 % 10), digitChar (d.year % 10), '-',
     digitChar (d.month / 10 % 10), digitChar (d.month % 10), '-',
     digitChar (d.day / 10 % 10), digitChar (d.day % 10), ' ',
     digitChar (d.hour / 10 % 10), digitChar (d.hour % 10), ':',
     digitChar (d.minute / 10 % 10), digitChar (d.minute % 10), ':',
     digitChar (d.second / 10 % 10), digitChar (d.second % 10)] := rfl

/-- C5: a POST that passes validation appends exactly one review at the end
of the store — its `ReviewId` the freshly generated 36-character UUID
string, its `Timestamp` the current time in `YYYY-MM-DD HH:MM:SS` shape at
second precision, its `Location` and `ReviewBody` exactly as provided — and
responds 201 with the serialized new review; the store grows by exactly
one. -/
theorem c5_post_success (l b : String) (u : Nat) (now : DateTime)
    (reviews : List Review) (hl : l ≠ "") (hb : b ≠ "")
    (hv : l ∈ VALID_LOCATIONS) :
    callPost (some l) (some b) u now reviews =
      (reviews ++ [(⟨uuidString u, b, l, formatTimestamp now⟩ : Review)],
        jsonCreated (renderReview ⟨uuidString u, b, l, formatTimestamp now⟩)) ∧
    (reviews ++ [(⟨uuidString u, b, l, formatTimestamp now⟩ : Review)]).length =
      reviews.length + 1 ∧
    (uuidString u).length = 36 ∧
    isTimestampFormat (formatTimestamp now) = true := by
  refine ⟨by simp [callPost, hl, hb, hv], by simp, ?_, ?_⟩
  · simp [uuidString, padNum, padNumRev_length]
  · unfold isTimestampFormat
    rw [formatTimestamp_data]
    simp [isDigit_digitChar_mod]

/-- Witness for C5 at concrete inputs: a valid POST to the empty store
appends the one new review and returns 201 with its serialization. -/
theorem c5_witness :
    ("Denver, Colorado" : String) ≠ "" ∧ ("Great!" : String) ≠ "" ∧
    "Denver, Colorado" ∈ VALID_LOCATIONS ∧
    (callPost (some "Denver, Colorado") (some "Great!") 7 dt0 [] =
      ([(⟨uuidString 7, "Great!", "Denver, Colorado", formatTimestamp dt0⟩ : Review)],
        jsonCreated (renderReview
          ⟨uuidString 7, "Great!", "Denver, Colorado", formatTimestamp dt0⟩)) ∧
      ([(⟨uuidString 7, "Great!", "Denver, Colorado", formatTimestamp dt0⟩ : Review)]).length =
        ([] : List Review).length + 1 ∧
      (uuidString 7).length = 36 ∧
      isTimestampFormat (formatTimestamp dt0) = true) :=
  ⟨by decide, by decide, by decide, by
    have h := c5_post_success "Denver, Colorado" "Great!" 7 dt0 []
      (by decide) (by decide) (by decide)
    simpa using h⟩

/-! ## Claim C1 -/

theorem compoundDesc_trans (a b c : ResponseRecord) (h1 : compoundDesc a b)
    (h2 : compoundDesc b c) : compoundDesc a c := by
  simp only [compoundDesc, decide_eq_true_eq] at *
  exact le_trans h2 h1

theorem compoundDesc_total (a b : ResponseRecord) :
    compoundDesc a b || compoundDesc b a := by
  simp only [compoundDesc, Bool.or_eq_true, decide_eq_true_eq]
  exact le_total _ _

theorem sortRecords_sorted (l : List ResponseRecord) :
    (sortRecords l).Pairwise fun a b =>
      b.sentiment.compound ≤ a.sentiment.compound := by
  have h := List.sorted_mergeSort compoundDesc_trans compoundDesc_total l
  exact h.imp fun hab => by
    simpa [compoundDesc, decide_eq_true_eq] using hab

theorem sortRecords_stable (l : List ResponseRecord) (p : ResponseRecord → Bool)
    (hp : ∀ a b, p a = true → p b = true → compoundDesc a b = true) :
    (sortRecords l).filter p = l.filter p := by
  have hpw : (l.filter p).Pairwise fun a b => compoundDesc a b := by
    apply List.pairwise_of_forall_mem_list
    intro a ha b hb
    exact hp a b (List.mem_filter.mp ha).2 (List.mem_filter.mp hb).2
  have hsub : (l.filter p).Sublist (sortRecords l) :=
    List.sublist_mergeSort compoundDesc_trans compoundDesc_total hpw
      (List.filter_sublist l)
  have h1 : (l.filter p).Sublist ((sortRecords l).filter p) := by
    have h2 := hsub.filter p
    rwa [List.filter_filter,
      show (fun a => p a && p a) = p from funext fun a => Bool.and_self _] at h2
  have h3 : ((sortRecords l).filter p).Perm (l.filter p) :=
    (List.mergeSort_perm l compoundDesc).filter p
  exact (h1.eq_of_length h3.length_eq.symm).symm

/-- C1: whenever the GET filtering succeeds with the filtered sequence
`fr`, the response records are exactly the scored `fr` sorted by
`sentiment.compound` descending (adjacent pairs non-increasing), and
records of any given compound value appear in the same relative order as
in `fr` (stability). -/
theorem c1_get_sorted_stable (score : String → SentimentScore)
    (loc sd ed : Option String) (reviews fr : List Review)
    (h : getFiltered loc sd ed reviews = .ok fr) :
    getRecords score loc sd ed reviews =
      .ok (sortRecords (fr.map (toRecord score))) ∧
    callGet score loc sd ed reviews =
      .response (jsonOk (renderRecords (sortRecords (fr.map (toRecord score))))) ∧
    (sortRecords (fr.map (toRecord score))).Pairwise
      (fun a b => b.sentiment.compound ≤ a.sentiment.compound) ∧
    ∀ c : Rat,
      (sortRecords (fr.map (toRecord score))).filter
          (fun x => decide (x.sentiment.compound = c)) =
        (fr.map (toRecord score)).filter
          (fun x => decide (x.sentiment.compound = c)) := by
  have hrec : getRecords score loc sd ed reviews =
      .ok (sortRecords (fr.map (toRecord score))) := by
    simp [getRecords, h, Except.map]
  refine ⟨hrec, by simp [callGet, hrec], sortRecords_sorted _, fun c => ?_⟩
  apply sortRecords_stable
  intro a b ha hb
  simp only [decide_eq_true_eq] at ha hb
  simp [compoundDesc, ha, hb]

/-- Witness for C1 at a concrete input: a one-review store, no filters. -/
theorem c1_witness :
    getFiltered Option.none Option.none Option.none [goodReview] =
      .ok [goodReview] ∧
    (getRecords score0 Option.none Option.none Option.none [goodReview] =
      .ok (sortRecords ([goodReview].map (toRecord score0))) ∧
    callGet score0 Option.none Option.none Option.none [goodReview] =
      .response (jsonOk (renderRecords (sortRecords
        ([goodReview].map (toRecord score0))))) ∧
    (sortRecords ([goodReview].map (toRecord score0))).Pairwise
      (fun a b => b.sentiment.compound ≤ a.sentiment.compound) ∧
    ∀ c : Rat,
      (sortRecords ([goodReview].map (toRecord score0))).filter
          (fun x => decide (x.sentiment.compound = c)) =
        ([goodReview].map (toRecord score0)).filter
          (fun x => decide (x.sentiment.compound = c))) :=
  ⟨rfl, c1_get_sorted_stable score0 Option.none Option.none Option.none
    [goodReview] [goodReview] rfl⟩

/-! ## Claim C2 -/

theorem parseParam_ok (x : Option String)
    (hx : ∀ s, x = some s → s ≠ "" ∧ (parseDate s).isSome) :
    parseParam x = .ok (toVar (x.bind parseDate)) := by
  cases x with
  | none => rfl
  | some s =>
    obtain ⟨hs, hp⟩ := hx s rfl
    obtain ⟨d, hd⟩ := Option.isSome_iff_exists.mp hp
    simp [parseParam, hs, hd, toVar]

theorem filterByDates_ok (sd ed : Option DateTime) (l : List Review)
    (hts : ∀ r ∈ l, (parseDate r.Timestamp).isSome) :
    filterByDates (toVar sd) (toVar ed) l = .ok (l.filter (datePassB sd ed)) := by
  induction l with
  | nil => rfl
  | cons r rs ih =>
    obtain ⟨t, ht⟩ := Option.isSome_iff_exists.mp (hts r (List.mem_cons_self r rs))
    have ih' := ih fun x hx => hts x (List.mem_cons_of_mem r hx)
    have hstep : filterByDates (toVar sd) (toVar ed) (r :: rs) =
        reviewInRange (toVar sd) (toVar ed) r >>= fun b =>
          filterByDates (toVar sd) (toVar ed) rs >>= fun rest =>
            pure (if b then r :: rest else rest) := rfl
    have hlow : checkLower (toVar sd) r = .ok (lowerOkB sd t) := by
      cases sd <;> simp [checkLower, toVar, ht, lowerOkB]
    have hup : checkUpper (toVar ed) r = .ok (upperOkB ed t) := by
      cases ed <;> simp [checkUpper, toVar, ht, upperOkB]
    have hr : reviewInRange (toVar sd) (toVar ed) r =
        .ok (lowerOkB sd t && upperOkB ed t) := by
      simp only [reviewInRange]
      rw [hlow, except_ok_bind]
      cases hb1 : lowerOkB sd t with
      | false => simp [pure, Except.pure]
      | true => simp [hup]
    have hpr : datePassB sd ed r = (lowerOkB sd t && upperOkB ed t) := by
      simp [datePassB, ht]
    rw [hstep, hr, except_ok_bind, ih', except_ok_bind, List.filter_cons, hpr]
    cases hb : (lowerOkB sd t && upperOkB ed t) <;> simp [pure, Except.pure]

/-- C2: over any store whose timestamps parse, with any provided-and-
parseable date parameters and any provided non-empty location (`parse_qs`
never yields an empty parameter value), the GET filter succeeds and
returns exactly the subsequence of the store matching the spec-side
predicate: location equality when provided, and the inclusive date-range
test on the parsed timestamp; in particular the result is a subsequence of
the input (order preserved, nothing added). -/
theorem c2_filter_characterization (loc sd ed : Option String)
    (reviews : List Review)
    (hloc : loc ≠ some "")
    (hsd : ∀ s, sd = some s → s ≠ "" ∧ (parseDate s).isSome)
    (hed : ∀ s, ed = some s → s ≠ "" ∧ (parseDate s).isSome)
    (hts : ∀ r ∈ reviews, (parseDate r.Timestamp).isSome) :
    getFiltered loc sd ed reviews =
      .ok (specFilter loc (sd.bind parseDate) (ed.bind parseDate) reviews) ∧
    (specFilter loc (sd.bind parseDate) (ed.bind parseDate) reviews).Sublist
      reviews := by
  refine ⟨?_, List.filter_sublist _⟩
  by_cases hdate : (optTruthy sd || optTruthy ed) = true
  · have hps := parseParam_ok sd hsd
    have hpe := parseParam_ok ed hed
    have hts' : ∀ r ∈ filterByLocation loc reviews, (parseDate r.Timestamp).isSome :=
      fun r hr => hts r ((filterByLocation_sublist loc reviews).subset hr)
    have hfd := filterByDates_ok (sd.bind parseDate) (ed.bind parseDate) _ hts'
    have hgf : getFiltered loc sd ed reviews =
        .ok ((filterByLocation loc reviews).filter
          (datePassB (sd.bind parseDate) (ed.bind parseDate))) := by
      simp only [getFiltered, hdate, if_true]
      rw [hps, except_ok_bind, hpe, except_ok_bind, hfd]
    rw [hgf]
    refine congrArg Except.ok ?_
    cases loc with
    | none =>
      simp only [filterByLocation, specFilter]
      generalize sd.bind parseDate = sdv
      generalize ed.bind parseDate = edv
      apply List.filter_congr
      intro r hr
      obtain ⟨t, ht⟩ := Option.isSome_iff_exists.mp (hts r hr)
      cases sdv <;> cases edv <;>
        simp [datePassB, lowerOkB, upperOkB, ht]
    | some lstr =>
      have hlstr : lstr ≠ "" := fun h => hloc (by rw [h])
      simp only [filterByLocation, if_neg hlstr, specFilter, List.filter_filter]
      generalize sd.bind parseDate = sdv
      generalize ed.bind parseDate = edv
      apply List.filter_congr
      intro r hr
      obtain ⟨t, ht⟩ := Option.isSome_iff_exists.mp (hts r hr)
      cases sdv <;> cases edv <;>
        simp [datePassB, lowerOkB, upperOkB, ht, Bool.and_comm,
          Bool.and_left_comm, Bool.and_assoc]
  · have hsdn : sd = Option.none := by
      cases sd with
      | none => rfl
      | some s =>
        have hs := (hsd s rfl).1
        simp [optTruthy, hs] at hdate
    have hedn : ed = Option.none := by
      cases ed with
      | none => rfl
      | some s =>
        have hs := (hed s rfl).1
        simp [optTruthy, hs] at hdate
    subst hsdn; subst hedn
    have hgf : getFiltered loc Option.none Option.none reviews =
        .ok (filterByLocation loc reviews) := rfl
    rw [hgf]
    refine congrArg Except.ok ?_
    cases loc with
    | none => simp [filterByLocation, specFilter]
    | some lstr =>
      have hlstr : lstr ≠ "" := fun h => hloc (by rw [h])
      simp [filterByLocation, if_neg hlstr, specFilter]

/-- Witness for C2 at a concrete input: one matching review, a location
filter and a parseable `start_date`. -/
theorem c2_witness :
    ((some "Denver, Colorado" : Option String) ≠ some "") ∧
    (∀ s, (some "2023-01-01" : Option String) = some s →
      s ≠ "" ∧ (parseDate s).isSome) ∧
    (∀ s, (Option.none : Option String) = some s →
      s ≠ "" ∧ (parseDate s).isSome) ∧
    (∀ r ∈ [goodReview], (parseDate r.Timestamp).isSome) ∧
    (getFiltered (some "Denver, Colorado") (some "2023-01-01") Option.none
        [goodReview] =
      .ok (specFilter (some "Denver, Colorado")
        ((some "2023-01-01" : Option String).bind parseDate)
        ((Option.none : Option String).bind parseDate) [goodReview]) ∧
    (specFilter (some "Denver, Colorado")
        ((some "2023-01-01" : Option String).bind parseDate)
        ((Option.none : Option String).bind parseDate) [goodReview]).Sublist
      [goodReview]) :=
  ⟨by decide,
   fun s hs => by cases hs; exact ⟨by decide, by decide⟩,
   fun s hs => Option.noConfusion hs,
   fun r hr => by rw [List.mem_singleton] at hr; subst hr; decide,
   c2_filter_characterization (some "Denver, Colorado") (some "2023-01-01")
     Option.none [goodReview] (by decide)
     (fun s hs => by cases hs; exact ⟨by decide, by decide⟩)
     (fun s hs => Option.noConfusion hs)
     (fun r hr => by rw [List.mem_singleton] at hr; subst hr; decide)⟩

/-! ## Claim C10 -/

theorem filterByDates_error (sd ed : Option DateTime) (l : List Review)
    (hsome : sd.isSome ∨ ed.isSome)
    (hbad : ∃ r ∈ l, parseDate r.Timestamp = Option.none) :
    filterByDates (toVar sd) (toVar ed) l = .error .valueError := by
  induction l with
  | nil => simp at hbad
  | cons r rs ih =>
    have hstep : filterByDates (toVar sd) (toVar ed) (r :: rs) =
        reviewInRange (toVar sd) (toVar ed) r >>= fun b =>
          filterByDates (toVar sd) (toVar ed) rs >>= fun rest =>
            pure (if b then r :: rest else rest) := rfl
    rcases hpr : parseDate r.Timestamp with _ | t
    · have hr : reviewInRange (toVar sd) (toVar ed) r = .error .valueError := by
        rcases hsome with hs | he
        · obtain ⟨d, hd⟩ := Option.isSome_iff_exists.mp hs
          subst hd
          simp [reviewInRange, checkLower, toVar, hpr, except_error_bind]
        · obtain ⟨d, hd⟩ := Option.isSome_iff_exists.mp he
          subst hd
          cases sd with
          | none =>
            simp [reviewInRange, checkLower, checkUpper, toVar, hpr,
              except_ok_bind, except_error_bind]
          | some d2 =>
            simp [reviewInRange, checkLower, toVar, hpr, except_error_bind]
      rw [hstep, hr, except_error_bind]
    · have hbad' : ∃ x ∈ rs, parseDate x.Timestamp = Option.none := by
        rcases hbad with ⟨x, hx, hpx⟩
        rcases List.mem_cons.mp hx with hx1 | hx2
        · subst hx1
          rw [hpr] at hpx
          exact absurd hpx (by simp)
        · exact ⟨x, hx2, hpx⟩
      have hlow : checkLower (toVar sd) r = .ok (lowerOkB sd t) := by
        cases sd <;> simp [checkLower, toVar, hpr, lowerOkB]
      have hup : checkUpper (toVar ed) r = .ok (upperOkB ed t) := by
        cases ed <;> simp [checkUpper, toVar, hpr, upperOkB]
      have hr : reviewInRange (toVar sd) (toVar ed) r =
          .ok (lowerOkB sd t && upperOkB ed t) := by
        simp only [reviewInRange]
        rw [hlow, except_ok_bind]
        cases hb1 : lowerOkB sd t with
        | false => simp [pure, Except.pure]
        | true => simp [hup]
      rw [hstep, hr, except_ok_bind, ih hbad', except_error_bind]

/-- C10 counterexample: with a location filter that excludes the only
stored review, whose `Timestamp` does not parse, and a parseable
`start_date`, the GET succeeds with 200 and an empty array — the
unparseable stored timestamp does not cause the 400 invalid-date response,
because the location filter runs before any date parsing. -/
theorem c10_counterexample :
    callGet score0 (some "El Paso, Texas") (some "2023-01-01") Option.none
      [badReview] = .response (jsonOk "[]") ∧
    jsonOk "[]" ≠ invalidDateResponse := by
  constructor
  · have h : getFiltered (some "El Paso, Texas") (some "2023-01-01")
        Option.none [badReview] = .ok [] := by rfl
    simp [callGet, getRecords, h, Except.map, sortRecords, renderRecords]
  · decide

/-- C10 as amended: when date filtering is active (a provided, parseable
`start_date` or `end_date`) and some review that survives the location
filter has an unparseable `Timestamp`, the whole GET responds 400 with the
invalid-date body — indistinguishable, at the interface, from a malformed
query date parameter. -/
theorem c10_bad_stored_timestamp (score : String → SentimentScore)
    (loc sd ed : Option String) (reviews : List Review)
    (hsd : ∀ s, sd = some s → s ≠ "" ∧ (parseDate s).isSome)
    (hed : ∀ s, ed = some s → s ≠ "" ∧ (parseDate s).isSome)
    (hsome : sd.isSome ∨ ed.isSome)
    (hbad : ∃ r ∈ filterByLocation loc reviews,
      parseDate r.Timestamp = Option.none) :
    callGet score loc sd ed reviews = .response invalidDateResponse := by
  have hcond : (optTruthy sd || optTruthy ed) = true := by
    rcases hsome with hs | he
    · obtain ⟨s, h1⟩ := Option.isSome_iff_exists.mp hs
      subst h1
      have := (hsd s rfl).1
      simp [optTruthy, this]
    · obtain ⟨s, h1⟩ := Option.isSome_iff_exists.mp he
      subst h1
      have := (hed s rfl).1
      simp [optTruthy, this]
  have hsome' : (sd.bind parseDate).isSome ∨ (ed.bind parseDate).isSome := by
    rcases hsome with hs | he
    · obtain ⟨s, h1⟩ := Option.isSome_iff_exists.mp hs
      subst h1
      exact Or.inl (by simpa using (hsd s rfl).2)
    · obtain ⟨s, h1⟩ := Option.isSome_iff_exists.mp he
      subst h1
      exact Or.inr (by simpa using (hed s rfl).2)
  have herr : getFiltered loc sd ed reviews = .error .valueError := by
    simp only [getFiltered, hcond, if_true]
    rw [parseParam_ok sd hsd, except_ok_bind, parseParam_ok ed hed,
      except_ok_bind]
    exact filterByDates_error _ _ _ hsome' hbad
  simp [callGet, getRecords, herr, Except.map]

/-- Witness for the amended C10 at a concrete input: no location filter,
a parseable `start_date`, and a stored review with unparseable timestamp
produce the invalid-date 400. -/
theorem c10_witness :
    (∀ s, (some "2023-01-01" : Option String) = some s →
      s ≠ "" ∧ (parseDate s).isSome) ∧
    (∀ s, (Option.none : Option String) = some s →
      s ≠ "" ∧ (parseDate s).isSome) ∧
    ((some "2023-01-01" : Option String).isSome ∨
      (Option.none : Option String).isSome) ∧
    (∃ r ∈ filterByLocation Option.none [badReview],
      parseDate r.Timestamp = Option.none) ∧
    callGet score0 Option.none (some "2023-01-01") Option.none [badReview] =
      .response invalidDateResponse :=
  ⟨fun s hs => by cases hs; exact ⟨by decide, by decide⟩,
   fun s hs => Option.noConfusion hs,
   Or.inl (by decide),
   ⟨badReview, by simp [filterByLocation], by decide⟩,
   c10_bad_stored_timestamp score0 Option.none (some "2023-01-01")
     Option.none [badReview]
     (fun s hs => by cases hs; exact ⟨by decide, by decide⟩)
     (fun s hs => Option.noConfusion hs)
     (Or.inl (by decide))
     ⟨badReview, by simp [filterByLocation], by decide⟩⟩
